import Mathlib

/-!
Shallow embedding of the promptforge template engine and chat composition
pipeline, together with proofs checking the specification claims.

Rust strings are modelled as lists of characters.  External collaborators
(the Handlebars rendering engine, serde JSON deserialization of messages,
the messageforge line parser) are modelled as explicit function parameters,
matching the specification, which treats them as black boxes.
-/

namespace PromptForge

/-- Rust strings, modelled as lists of characters. -/
abbrev Str := List Char

/-- Conversion from a Lean string literal to the model representation. -/
def str (s : String) : Str := s.data

/-- The opening brace character, written via an escape. -/
def lb : Char := '\x7b'

/-- The closing brace character, written via an escape. -/
def rb : Char := '\x7d'

/-- Drops a matching prefix, mirroring a byte-by-byte comparison; returns
the remainder when the first list is a prefix of the second. -/
def dropPre? : Str → Str → Option Str
  | [], s => some s
  | _ :: _, [] => none
  | p :: ps, a :: tl => if p = a then dropPre? ps tl else none

/-- Like dropPre? but refuses the empty pattern, so that one successful
match always consumes at least one character. -/
def stripPre? (pat s : Str) : Option Str :=
  match pat with
  | [] => none
  | _ :: _ => dropPre? pat s

/-- Occurrence test for a contiguous substring, mirroring the Rust
str::contains used by the brace analyzer. -/
def containsSeq (pat : Str) : Str → Bool
  | [] => decide (pat = [])
  | a :: tl => pat.isPrefixOf (a :: tl) || containsSeq pat tl

/-- Fuel-indexed worker for Rust str::replace: scans left to right and
replaces each non-overlapping occurrence of the pattern. -/
def replFuel : Nat → Str → Str → Str → Str
  | 0, s, _, _ => s
  | Nat.succ n, s, pat, rep =>
    match s with
    | [] => []
    | a :: tl =>
      match stripPre? pat (a :: tl) with
      | some rest => rep ++ replFuel n rest pat rep
      | none => a :: replFuel n tl pat rep

/-- Rust str::replace on the model strings.  The fuel equals the string
length, which suffices because every step consumes at least one character.
(Rust replaces with an empty pattern by interspersing; the engine only ever
replaces brace-delimited placeholders, which are never empty, and for a
nonempty pattern this definition agrees with Rust.) -/
def replaceL (s pat rep : Str) : Str := replFuel s.length s pat rep

/-- Whitespace test used by trim and by word splitting. -/
def isWS (c : Char) : Bool := c = ' ' || c = '\t' || c = '\n' || c = '\r'

/-- Rust str::trim on the model strings. -/
def trimL (s : Str) : Str :=
  ((s.dropWhile isWS).reverse.dropWhile isWS).reverse

theorem length_dropWhile_le (p : Char → Bool) (l : Str) :
    (l.dropWhile p).length ≤ l.length :=
  List.Sublist.length_le (List.dropWhile_sublist p)

/-- Single-pass word counter; the flag records whether the scan is inside
a word. -/
def wordsCountAux : Bool → Str → Nat
  | _, [] => 0
  | inw, a :: tl =>
    if isWS a then wordsCountAux false tl
    else (if inw then 0 else 1) + wordsCountAux true tl

/-- Number of whitespace-separated words, as counted by
split_whitespace().count() in the brace analyzer. -/
def wordsCount (s : Str) : Nat := wordsCountAux false s

/-- Character class of the identifier regex head. -/
def isIdHead (c : Char) : Bool :=
  (('a' ≤ c && c ≤ 'z') || ('A' ≤ c && c ≤ 'Z') || c = '_')

/-- Character class of the identifier regex tail. -/
def isIdTail (c : Char) : Bool :=
  isIdHead c || ('0' ≤ c && c ≤ '9')

/-- The is_valid_identifier check from placeholder.rs: the full string must
match one identifier-head character followed by identifier-tail characters. -/
def is_valid_identifier : Str → Bool
  | [] => false
  | a :: tl => isIdHead a && tl.all isIdTail

/-! ## Brace analyzer (braces.rs) -/

/-- count_left_braces from braces.rs. -/
def count_left_braces (s : Str) : Nat := s.count lb

/-- count_right_braces from braces.rs. -/
def count_right_braces (s : Str) : Nat := s.count rb

/-- has_even_left_braces from braces.rs (is_even is a remainder check). -/
def has_even_left_braces (s : Str) : Bool := count_left_braces s % 2 = 0

/-- has_even_right_braces from braces.rs. -/
def has_even_right_braces (s : Str) : Bool := count_right_braces s % 2 = 0

/-- has_left_brace from braces.rs. -/
def has_left_brace (s : Str) : Bool := 0 < count_left_braces s

/-- has_right_brace from braces.rs. -/
def has_right_brace (s : Str) : Bool := 0 < count_right_braces s

/-- has_consecutive_left_braces from braces.rs: contains two adjacent
opening braces. -/
def has_consecutive_left_braces (s : Str) : Bool := containsSeq [lb, lb] s

/-- has_consecutive_right_braces from braces.rs. -/
def has_consecutive_right_braces (s : Str) : Bool := containsSeq [rb, rb] s

/-- has_only_single_braces from braces.rs. -/
def has_only_single_braces (s : Str) : Bool :=
  has_left_brace s && has_right_brace s
    && !has_consecutive_left_braces s && !has_consecutive_right_braces s

/-- has_only_double_braces from braces.rs. -/
def has_only_double_braces (s : Str) : Bool :=
  has_consecutive_left_braces s && has_consecutive_right_braces s
    && has_even_left_braces s && has_even_right_braces s

/-- has_no_braces from braces.rs. -/
def has_no_braces (s : Str) : Bool := !has_left_brace s && !has_right_brace s

/-!
Brace-group matching.  Both regexes of the source scan for a group of one
or two opening braces, a nonempty run of characters other than a closing
brace, and one or two closing braces.  tryMatch implements the leftmost
match attempt at the current position, including the backtracking step of
the regex engine when the double-opening alternative fails; it returns the
captured run and the remainder after the greedy closing braces.
-/

/-- Grabs the maximal nonempty run of characters other than a closing
brace, requires a closing brace after it, consumes one or two closing
braces greedily, and returns the run with the remainder. -/
def grabRun (t : Str) : Option (Str × Str) :=
  let run := t.takeWhile (fun c => c ≠ rb)
  match run, t.dropWhile (fun c => c ≠ rb) with
  | [], _ => none
  | _ :: _, c1 :: c2 :: rest =>
      if c1 = rb then (if c2 = rb then some (run, rest) else some (run, c2 :: rest))
      else none
  | _ :: _, [c1] => if c1 = rb then some (run, []) else none
  | _ :: _, [] => none

/-- Attempts a brace-group match at the current position. -/
def tryMatch : Str → Option (Str × Str)
  | [] => none
  | a :: tl =>
    if a = lb then
      match tl with
      | b :: tl2 =>
        if b = lb then
          match grabRun tl2 with
          | some rr => some rr
          | none => grabRun tl
        else grabRun tl
      | [] => none
    else none

/-- Fuel-indexed scan for the first brace-group match in a string. -/
def firstGroupFuel : Nat → Str → Option Str
  | 0, _ => none
  | Nat.succ n, s =>
    match s with
    | [] => none
    | _ :: tl =>
      match tryMatch s with
      | some (run, _) => some run
      | none => firstGroupFuel n tl

/-- The first brace-group capture of a string, mirroring the single
Regex::captures call of has_multiple_words_between_braces. -/
def firstGroup (s : Str) : Option Str := firstGroupFuel s.length s

/-- has_multiple_words_between_braces from braces.rs: the first brace
group, trimmed and split on whitespace, has more than one word. -/
def has_multiple_words_between_braces (s : Str) : Bool :=
  match firstGroup s with
  | some run => decide (1 < wordsCount (trimL run))
  | none => false

/-- Fuel-indexed scan collecting every brace-group capture, resuming after
the end of each match as Regex::captures_iter does. -/
def groupsFuel : Nat → Str → List Str
  | 0, _ => []
  | Nat.succ n, s =>
    match s with
    | [] => []
    | _ :: tl =>
      match tryMatch s with
      | some (run, rest) => run :: groupsFuel n rest
      | none => groupsFuel n tl

/-- Keeps the first occurrence of each element, mirroring the HashSet
insert guard of extract_variables. -/
def dedupKeepFirst : List Str → List Str → List Str
  | _, [] => []
  | seen, v :: vs =>
    if v ∈ seen then dedupKeepFirst seen vs
    else v :: dedupKeepFirst (v :: seen) vs

/-- extract_variables from placeholder.rs: every brace-group capture that
is a valid identifier (the additional multiple-words check of the source
is vacuous on identifiers), trimmed, deduplicated keeping first
occurrences. -/
def extract_variables (template : Str) : List Str :=
  dedupKeepFirst []
    (((groupsFuel template.length template).map trimL).filter
      (fun v => is_valid_identifier v && !has_multiple_words_between_braces v))

/-! ## Template format classification (template_format.rs) -/

/-- The TemplateFormat enumeration. -/
inductive TemplateFormat where
  | PlainText
  | FmtString
  | Mustache
deriving DecidableEq, Repr

/-- The TemplateError enumeration.  The RenderError payload of the source
wraps an error value of the external engine, modelled as a string. -/
inductive TemplateError where
  | MalformedTemplate (msg : Str)
  | UnsupportedFormat (msg : Str)
  | MissingVariable (msg : Str)
  | RenderError (err : Str)
  | InvalidRoleError
deriving DecidableEq, Repr

instance {ε α : Type} [DecidableEq ε] [DecidableEq α] : DecidableEq (Except ε α)
  | Except.ok a, Except.ok b =>
      if h : a = b then isTrue (congrArg Except.ok h)
      else isFalse (fun he => h (Except.ok.inj he))
  | Except.ok _, Except.error _ => isFalse (fun he => Except.noConfusion he)
  | Except.error _, Except.ok _ => isFalse (fun he => Except.noConfusion he)
  | Except.error a, Except.error b =>
      if h : a = b then isTrue (congrArg Except.error h)
      else isFalse (fun he => h (Except.error.inj he))

/-- is_plain_text from template_format.rs. -/
def is_plain_text (s : Str) : Bool := has_no_braces s

/-- is_mustache from template_format.rs. -/
def is_mustache (s : Str) : Bool :=
  has_only_double_braces s && !has_multiple_words_between_braces s

/-- is_fmtstring from template_format.rs. -/
def is_fmtstring (s : Str) : Bool :=
  has_only_single_braces s && !has_multiple_words_between_braces s

/-- is_valid_template from template_format.rs. -/
def is_valid_template (s : Str) : Bool :=
  if has_no_braces s then true
  else
    decide (count_left_braces s = count_right_braces s)
      && (has_only_double_braces s || has_only_single_braces s)

/-- validate_template from template_format.rs. -/
def validate_template (s : Str) : Except TemplateError Unit :=
  if is_valid_template s then .ok () else .error (.MalformedTemplate s)

/-- detect_template from template_format.rs. -/
def detect_template (s : Str) : Except TemplateError TemplateFormat :=
  if is_plain_text s then .ok .PlainText
  else if is_mustache s then .ok .Mustache
  else if is_fmtstring s then .ok .FmtString
  else .error (.UnsupportedFormat s)

/-! ## Variable maps and merging -/

/-- Variable maps, modelled as association lists; lookup takes the first
matching key, so an entry shadows every later entry with the same key.
The Rust HashMap has unique keys; all operations below preserve lookup
semantics. -/
abbrev VarMap := List (Str × Str)

/-- merge_vars from template_format.rs: the defaults map (called partial
variables in the source) is extended by the runtime variables, the runtime
value winning on a key collision.  Placing the runtime entries first gives
exactly this lookup behavior. -/
def merge_vars (defaults : VarMap) (runtime : VarMap) : VarMap :=
  runtime ++ defaults

/-- Debug rendering of a list of strings, as in the Rust diagnostic
message. -/
def debugStrList (l : List Str) : Str :=
  str "[" ++
    (List.intercalate (str ", ") (l.map (fun s => str "\x22" ++ s ++ str "\x22"))) ++ str "]"

/-- The diagnostic payload produced by Template::validate_variables for a
missing variable.  The received-keys component of the Rust message comes
from an unordered HashMap, so its order is unspecified there; the model
fixes the merged-list order.  No claim depends on the tail of this
message, only on the variable it names. -/
def validateMissingMsg (var : Str) (expected : List Str) (received : List Str) : Str :=
  str "Variable \x27" ++ var ++ str "\x27 is missing. Expected: " ++
    debugStrList expected ++ str ", but received: " ++ debugStrList received

/-! ## Template (template.rs) -/

/-- The Template struct from template.rs.  The handlebars field of the
source holds the compiled engine exactly when the format is Mustache; the
model keeps only the presence flag, and the engine itself is passed to the
formatting functions as an explicit parameter.  The partials field of the
source is called defaults here. -/
structure Template where
  template : Str
  template_format : TemplateFormat
  input_variables : List Str
  handlebars : Bool
  defaults : VarMap
deriving DecidableEq, Repr

namespace Template

/-- Template::new from template.rs: validate, classify, extract the
variables, and for Mustache eagerly register with the external engine
(parameter hb); a registration failure becomes MalformedTemplate. -/
def new (hb : Str → Except Str Unit) (tmpl : Str) : Except TemplateError Template :=
  match validate_template tmpl with
  | .error e => .error e
  | .ok _ =>
    match detect_template tmpl with
    | .error e => .error e
    | .ok fmt =>
      if fmt = TemplateFormat.Mustache then
        match hb tmpl with
        | .error e =>
            .error (.MalformedTemplate (str "Failed to register template: " ++ e))
        | .ok _ =>
            .ok ⟨tmpl, fmt, extract_variables tmpl, true, []⟩
      else .ok ⟨tmpl, fmt, extract_variables tmpl, false, []⟩

/-- Template::from_template is an alias of new. -/
def from_template (hb : Str → Except Str Unit) (tmpl : Str) :
    Except TemplateError Template :=
  new hb tmpl

/-- Template::partial from template.rs: binds a default value for a
variable, overwriting an earlier binding of the same name. -/
def bindDefault (t : Template) (k v : Str) : Template :=
  { t with defaults := (k, v) :: t.defaults.filter (fun p => !(p.1 == k)) }

/-- Worker of Template::validate_variables: walks the declared variables
in order and fails on the first one absent from the merged map. -/
def validateGo (expected : List Str) (received : List Str) (merged : VarMap) :
    List Str → Except TemplateError Unit
  | [] => .ok ()
  | v :: vs =>
    if (merged.lookup v).isSome then validateGo expected received merged vs
    else .error (.MissingVariable (validateMissingMsg v expected received))

/-- Template::validate_variables from template.rs. -/
def validate_variables (t : Template) (merged : VarMap) : Except TemplateError Unit :=
  validateGo t.input_variables (merged.map Prod.fst) merged t.input_variables

/-- The single-brace placeholder text of a variable. -/
def placeholderOf (v : Str) : Str := lb :: v ++ [rb]

/-- Worker of Template::format_fmtstring: for each declared variable in
declaration order, replace every occurrence of its placeholder across the
whole current string by its value. -/
def format_fmtstring_go (merged : VarMap) : List Str → Str → Except TemplateError Str
  | [], acc => .ok acc
  | v :: vs, acc =>
    match merged.lookup v with
    | some val => format_fmtstring_go merged vs (replaceL acc (placeholderOf v) val)
    | none => .error (.MissingVariable v)

/-- Template::format_fmtstring from template.rs. -/
def format_fmtstring (t : Template) (merged : VarMap) : Except TemplateError Str :=
  format_fmtstring_go merged t.input_variables t.template

/-- Template::format_mustache from template.rs: delegate to the external
engine (parameter render); an engine failure surfaces as RenderError. -/
def format_mustache (render : Str → VarMap → Except Str Str) (t : Template)
    (merged : VarMap) : Except TemplateError Str :=
  if t.handlebars then (render t.template merged).mapError TemplateError.RenderError
  else .error (.UnsupportedFormat (str "Handlebars not initialized"))

/-- Templatable::format for Template from template.rs: merge the default
and runtime variables, validate, and dispatch on the format. -/
def format (render : Str → VarMap → Except Str Str) (t : Template)
    (runtime_vars : VarMap) : Except TemplateError Str :=
  let merged := merge_vars t.defaults runtime_vars
  match t.validate_variables merged with
  | .error e => .error e
  | .ok _ =>
    match t.template_format with
    | .FmtString => t.format_fmtstring merged
    | .Mustache => t.format_mustache render merged
    | .PlainText => .ok t.template

end Template

/-! ## Messages and roles (role.rs, external messageforge message type) -/

/-- The message-type tag of the external concrete message value type
(messageforge MessageType), as the specification models it. -/
inductive MsgType where
  | human
  | ai
  | system
  | tool
deriving DecidableEq, Repr

/-- The canonical string of a message type. -/
def MsgType.as_str : MsgType → Str
  | .human => str "human"
  | .ai => str "ai"
  | .system => str "system"
  | .tool => str "tool"

/-- The external concrete message value type (messageforge MessageEnum):
a role tag together with content. -/
structure MessageEnum where
  msgType : MsgType
  content : Str
deriving DecidableEq, Repr

/-- The Role enumeration.  role.rs lists System, Human, Ai, Tool and
Placeholder; the chat-template module additionally matches on a
FewShotPrompt role, which the model therefore includes. -/
inductive Role where
  | System
  | Human
  | Ai
  | Tool
  | Placeholder
  | FewShotPrompt
deriving DecidableEq, Repr

/-- Role::as_str from role.rs (extended to the FewShotPrompt marker). -/
def Role.as_str : Role → Str
  | .System => str "system"
  | .Human => str "human"
  | .Ai => str "ai"
  | .Tool => str "tool"
  | .Placeholder => str "placeholder"
  | .FewShotPrompt => str "fewshotprompt"

/-- Role::to_message from role.rs: System, Human and Ai produce a concrete
message; every other role is a structural marker and fails. -/
def Role.to_message : Role → Str → Except Unit MessageEnum
  | .System, content => .ok ⟨.system, content⟩
  | .Human, content => .ok ⟨.human, content⟩
  | .Ai, content => .ok ⟨.ai, content⟩
  | _, _ => .error ()

/-! ## MessagesPlaceholder (messages_placeholder.rs) -/

/-- The MessagesPlaceholder struct. -/
structure MessagesPlaceholder where
  variable_name : Str
  optional : Bool
  n_messages : Nat
deriving DecidableEq, Repr

namespace MessagesPlaceholder

/-- The default message limit. -/
def DEFAULT_LIMIT : Nat := 100

/-- MessagesPlaceholder::with_options: a supplied limit below one is
coerced to the default. -/
def with_options (variable_name : Str) (optional : Bool) (n_messages : Nat) :
    MessagesPlaceholder :=
  ⟨variable_name, optional, if n_messages < 1 then DEFAULT_LIMIT else n_messages⟩

/-- MessagesPlaceholder::new: not optional, default limit. -/
def new (variable_name : Str) : MessagesPlaceholder :=
  with_options variable_name false DEFAULT_LIMIT

end MessagesPlaceholder

/-- extract_placeholder_variable from placeholder.rs: the template must
contain exactly one extracted variable. -/
def extract_placeholder_variable (template : Str) : Except TemplateError Str :=
  match extract_variables template with
  | [v] => .ok v
  | _ => .error (.MalformedTemplate
      (str "Template must contain exactly one placeholder variable."))

/-- MessagesPlaceholder::try_from a template string. -/
def MessagesPlaceholder.try_from (s : Str) : Except TemplateError MessagesPlaceholder :=
  (extract_placeholder_variable s).map MessagesPlaceholder.new

/-! ## FewShotTemplate and MessageLike (few_shot_template.rs, message_like.rs) -/

/-- The FewShotTemplate struct, instantiated at Template as in
few_shot_chat_template.rs.  The prefix and suffix fields of the source are
called prefixTpl and suffixTpl here. -/
structure FewShotTemplate where
  examples : List Template
  example_separator : Str
  prefixTpl : Option Template
  suffixTpl : Option Template
deriving DecidableEq, Repr

/-- The default example separator. -/
def FewShotTemplate.DEFAULT_EXAMPLE_SEPARATOR : Str := str "\n\n"

/-- FewShotTemplate::new: given examples, default separator, no prefix or
suffix. -/
def FewShotTemplate.newFS (examples : List Template) : FewShotTemplate :=
  ⟨examples, FewShotTemplate.DEFAULT_EXAMPLE_SEPARATOR, none, none⟩

/-- The MessageLike tagged union from message_like.rs.  The FewShotPrompt
variant of the source holds a FewShotChatTemplate, which is a
FewShotTemplate together with an example-prompt ChatTemplate; to keep the
nested recursion explicit, the variant carries the FewShotTemplate and the
entry list of the example prompt. -/
inductive MessageLike where
  | BaseMessage (message : MessageEnum)
  | RolePromptTemplate (role : Role) (template : Template)
  | Placeholder (p : MessagesPlaceholder)
  | FewShotPrompt (examples : FewShotTemplate) (example_prompt : List MessageLike)

/-- The ChatTemplate struct: an ordered sequence of MessageLike. -/
structure ChatTemplate where
  messages : List MessageLike

/-- The FewShotChatTemplate struct from few_shot_chat_template.rs. -/
structure FewShotChatTemplate where
  examples : FewShotTemplate
  example_prompt : ChatTemplate

/-- Embeds a FewShotChatTemplate as a MessageLike entry. -/
def MessageLike.few_shot_prompt (f : FewShotChatTemplate) : MessageLike :=
  .FewShotPrompt f.examples f.example_prompt.messages

/-! ## External collaborators -/

/-- The external collaborators consumed as black boxes: the Mustache-style
rendering engine, serde deserialization of a JSON array of serialized
messages, and the line-based message parser of the external message crate. -/
structure Ext where
  render : Str → VarMap → Except Str Str
  deser_messages : Str → Except Str (List MessageEnum)
  parse_messages : Str → Except Str (List MessageEnum)

/-! ## Variable harvesting (ChatTemplate::to_variables_map) -/

/-- HashMap::insert on the association-list model: the new binding
replaces any earlier binding of the same key. -/
def insertVar (k v : Str) (m : VarMap) : VarMap :=
  (k, v) :: m.filter (fun p => !(p.1 == k))

/-- One step of ChatTemplate::to_variables_map: a role-bound template
contributes its first extracted variable mapped to the role string; a
concrete message contributes the first extracted variable of its content
mapped to its message-type string; other entries contribute nothing. -/
def toVarsStep (m : VarMap) : MessageLike → VarMap
  | .RolePromptTemplate role template =>
    match (extract_variables template.template).head? with
    | some v => insertVar v role.as_str m
    | none => m
  | .BaseMessage bm =>
    match (extract_variables bm.content).head? with
    | some v => insertVar v bm.msgType.as_str m
    | none => m
  | _ => m

/-- ChatTemplate::to_variables_map over an entry list. -/
def to_variables_map_list (ms : List MessageLike) : VarMap :=
  ms.foldl toVarsStep []

/-- ChatTemplate::to_variables_map from chat_template.rs. -/
def ChatTemplate.to_variables_map (ct : ChatTemplate) : VarMap :=
  to_variables_map_list ct.messages

/-! ## FewShotTemplate and FewShotChatTemplate formatting -/

/-- Formats every example template with the same variable map; the first
failure aborts the whole call. -/
def formatTemplates (render : Str → VarMap → Except Str Str) (vars : VarMap) :
    List Template → Except TemplateError (List Str)
  | [] => .ok []
  | t :: ts =>
    match t.format render vars with
    | .error e => .error e
    | .ok s => (formatTemplates render vars ts).map (fun rest => s :: rest)

/-- Formattable::format for FewShotTemplate of Template from
few_shot_template.rs: format the prefix if present, format every example,
join the examples with the separator, format the suffix if present, and
join the non-empty segments with the separator. -/
def FewShotTemplate.formatFS (render : Str → VarMap → Except Str Str)
    (f : FewShotTemplate) (vars : VarMap) : Except TemplateError Str := do
  let prefix_str ← match f.prefixTpl with
    | some p => p.format render vars
    | none => pure []
  let formatted_examples ← formatTemplates render vars f.examples
  let examples_str := List.intercalate f.example_separator formatted_examples
  let suffix_str ← match f.suffixTpl with
    | some p => p.format render vars
    | none => pure []
  let result_parts :=
    ([prefix_str, examples_str, suffix_str].filter (fun s => !s.isEmpty))
  pure (List.intercalate f.example_separator result_parts)

/-- Formattable::format for FewShotChatTemplate from
few_shot_chat_template.rs: format the underlying FewShotTemplate and, when
the result is non-empty, append the literal two-newline suffix. -/
def FewShotChatTemplate.formatFSC (render : Str → VarMap → Except Str Str)
    (f : FewShotChatTemplate) (vars : VarMap) : Except TemplateError Str :=
  match f.examples.formatFS render vars with
  | .error e => .error e
  | .ok ex => if ex.isEmpty then .ok [] else .ok (ex ++ str "\n\n")

/-- FewShotChatTemplate::format_examples: format with the variable map
harvested from the example prompt. -/
def FewShotChatTemplate.format_examples (render : Str → VarMap → Except Str Str)
    (f : FewShotChatTemplate) : Except TemplateError Str :=
  f.formatFSC render (f.example_prompt.to_variables_map)

/-! ## ChatTemplate resolution (chat_template.rs) -/

/-- ChatTemplate::deserialize_placeholder_messages: deserialize a JSON
array of serialized messages (failure becomes MalformedTemplate) and keep
the first n_messages entries when the limit is positive. -/
def deserialize_placeholder_messages (ext : Ext) (messages_str : Str)
    (n_messages : Nat) : Except TemplateError (List MessageEnum) :=
  match ext.deser_messages messages_str with
  | .error e => .error (.MalformedTemplate (str "Failed to deserialize placeholder: " ++ e))
  | .ok ms => .ok (if 0 < n_messages then ms.take n_messages else ms)

/-- The per-entry resolution match of ChatTemplate::format_messages. -/
def resolveOne (ext : Ext) (vars : VarMap) : MessageLike → Except TemplateError (List MessageEnum)
  | .BaseMessage m => .ok [m]
  | .RolePromptTemplate role template =>
    match template.format ext.render vars with
    | .error e => .error e
    | .ok s =>
      match role.to_message s with
      | .error _ => .error .InvalidRoleError
      | .ok m => .ok [m]
  | .Placeholder p =>
    if p.optional then .ok []
    else
      match vars.lookup p.variable_name with
      | none => .error (.MissingVariable p.variable_name)
      | some s => deserialize_placeholder_messages ext s p.n_messages
  | .FewShotPrompt fewShot example_prompt =>
    match FewShotChatTemplate.format_examples ext.render ⟨fewShot, ⟨example_prompt⟩⟩ with
    | .error e => .error e
    | .ok s =>
      match ext.parse_messages s with
      | .error e => .error (.MalformedTemplate (str "Failed to parse message: " ++ e))
      | .ok ms => .ok ms

/-- The resolution loop of ChatTemplate::format_messages: entries resolved
in order, results concatenated in order, the first failure aborting. -/
def format_messages_list (ext : Ext) (vars : VarMap) :
    List MessageLike → Except TemplateError (List MessageEnum)
  | [] => .ok []
  | m :: rest =>
    match resolveOne ext vars m with
    | .error e => .error e
    | .ok xs =>
      match format_messages_list ext vars rest with
      | .error e => .error e
      | .ok ys => .ok (xs ++ ys)

/-- ChatTemplate::format_messages from chat_template.rs. -/
def ChatTemplate.format_messages (ext : Ext) (ct : ChatTemplate) (vars : VarMap) :
    Except TemplateError (List MessageEnum) :=
  format_messages_list ext vars ct.messages

/-- ChatTemplate::invoke delegates to format_messages. -/
def ChatTemplate.invoke (ext : Ext) (ct : ChatTemplate) (vars : VarMap) :
    Except TemplateError (List MessageEnum) :=
  ct.format_messages ext vars

/-- The Add implementation for ChatTemplate: the left entry list extended
by the right one. -/
def ChatTemplate.add (a b : ChatTemplate) : ChatTemplate :=
  ⟨a.messages ++ b.messages⟩

/-- The empty ChatTemplate, as built from an empty message list. -/
def empty_chat_template : ChatTemplate := ⟨[]⟩

/-- The entry-construction match of ChatTemplate::from_messages: a
Placeholder role parses its single placeholder variable, a FewShotPrompt
role parses a serialized FewShotChatTemplate (black-box parameter
parseFewShot), and any other role parses a Template, baking plain text
into a concrete message immediately. -/
def buildEntry (hb : Str → Except Str Unit)
    (parseFewShot : Str → Except TemplateError FewShotChatTemplate)
    (role : Role) (template_str : Str) : Except TemplateError MessageLike :=
  match role with
  | .Placeholder => (MessagesPlaceholder.try_from template_str).map .Placeholder
  | .FewShotPrompt => (parseFewShot template_str).map MessageLike.few_shot_prompt
  | r =>
    match Template.from_template hb template_str with
    | .error e => .error e
    | .ok pt =>
      if pt.template_format = TemplateFormat.PlainText then
        match r.to_message template_str with
        | .error _ => .error .InvalidRoleError
        | .ok bm => .ok (.BaseMessage bm)
      else .ok (.RolePromptTemplate r pt)

/-- The construction loop of ChatTemplate::from_messages; the first
invalid entry aborts the whole build. -/
def from_messages_list (hb : Str → Except Str Unit)
    (parseFewShot : Str → Except TemplateError FewShotChatTemplate) :
    List (Role × Str) → Except TemplateError (List MessageLike)
  | [] => .ok []
  | (role, template_str) :: rest =>
    match buildEntry hb parseFewShot role template_str with
    | .error e => .error e
    | .ok entry => (from_messages_list hb parseFewShot rest).map (fun es => entry :: es)

/-- ChatTemplate::from_messages from chat_template.rs. -/
def ChatTemplate.from_messages (hb : Str → Except Str Unit)
    (parseFewShot : Str → Except TemplateError FewShotChatTemplate)
    (msgs : List (Role × Str)) : Except TemplateError ChatTemplate :=
  (from_messages_list hb parseFewShot msgs).map ChatTemplate.mk

/-! ## Token decomposition of FmtString templates

A template that decomposes into brace-free literal chunks and
brace-delimited placeholders is represented by a token list; flatToks
recovers the raw string.  This is the shape in which the sequential
substitution of format_fmtstring can be tracked occurrence by
occurrence. -/

/-- One token of a decomposed template: a literal chunk or a placeholder. -/
inductive Tok where
  | lit (chunk : Str)
  | var (name : Str)

/-- Flattens a token list back to the raw template string. -/
def flatToks : List Tok → Str
  | [] => []
  | .lit c :: ts => c ++ flatToks ts
  | .var v :: ts => Template.placeholderOf v ++ flatToks ts

/-- Substitutes a value for every placeholder token of the given name. -/
def substTok (v val : Str) : Tok → Tok
  | .var w => if w = v then .lit val else .var w
  | t => t

/-- Well-formedness of one token relative to a list of declared
variables: literal chunks are brace-free, placeholder names are declared
and brace-free. -/
def TokOk (decl : List Str) : Tok → Prop
  | .lit c => lb ∉ c ∧ rb ∉ c
  | .var w => w ∈ decl ∧ lb ∉ w ∧ rb ∉ w

instance (decl : List Str) : (t : Tok) → Decidable (TokOk decl t)
  | .lit c => (inferInstance : Decidable (lb ∉ c ∧ rb ∉ c))
  | .var w => (inferInstance : Decidable (w ∈ decl ∧ lb ∉ w ∧ rb ∉ w))

/-- Map inclusion: every binding of the first map is a binding of the
second. -/
def mapSub (m mBig : VarMap) : Prop :=
  ∀ k v, m.lookup k = some v → mBig.lookup k = some v

/-! ## Concrete fixtures used by witnesses and counterexamples -/

/-- Modelled from the spec: the external Mustache rendering engine is a
black box whose eager registration step fails only on syntax the engine
itself rejects; the specification gives no failure condition for the
simple variable-only double-brace templates used below, so this fixture
registers every template. -/
def hbAccepts : Str → Except Str Unit := fun _ => .ok ()

/-- A rendering fixture that always fails; every use below is on a
non-Mustache template, where the engine is never invoked. -/
def renderNone : Str → VarMap → Except Str Str :=
  fun _ _ => .error (str "render not available")

/-- The serialized one-message history of the specification scenario. -/
def histJson : Str :=
  str "[\x7b\x22role\x22:\x22human\x22,\x22content\x22:\x22hey\x22\x7d]"

/-- Modelled from the spec: serde deserialization of a JSON array of
serialized messages is external; on the specification example input it
yields exactly one Human message with content hey, and it fails on other
inputs used here. -/
def extHist : Ext :=
  ⟨renderNone,
   fun s => if s = histJson then .ok [⟨.human, str "hey"⟩] else .error (str "bad json"),
   fun _ => .error (str "no parser")⟩

/-- The ChatTemplate of the C1 failing input: one optional placeholder
named history with the default limit. -/
def ctOptional : ChatTemplate :=
  ⟨[.Placeholder (MessagesPlaceholder.with_options (str "history") true 100)]⟩

/-- The Template produced by construction from a single-variable
FmtString raw string over the variable a. -/
def tSingleA : Template :=
  ⟨str "\x7ba\x7d", .FmtString, [str "a"], false, []⟩

/-- tSingleA with the default value P bound for a, as produced by the
partial-binding method. -/
def tSingleADefault : Template :=
  ⟨str "\x7ba\x7d", .FmtString, [str "a"], false, [(str "a", str "P")]⟩

/-- The Template produced by construction from the mixed-brace raw string
that combines one double-brace group with two single-brace groups. -/
def tMixed : Template :=
  ⟨str "\x7b\x7ba\x7d\x7d \x7bb\x7d \x7bc\x7d", .Mustache,
   [str "a", str "b", str "c"], true, []⟩

/-- The Template produced by construction from a two-variable FmtString
raw string over a and b. -/
def tPairAB : Template :=
  ⟨str "\x7ba\x7d \x7bb\x7d", .FmtString, [str "a", str "b"], false, []⟩

/-- A plain-text example Template with content E. -/
def tPlainE : Template := ⟨str "E", .PlainText, [], false, []⟩

/-- A FewShotChatTemplate with one plain example, a custom one-character
separator, no prefix and no suffix, and an empty example prompt. -/
def fewShotSep : FewShotChatTemplate :=
  ⟨⟨[tPlainE], str "|", none, none⟩, ⟨[]⟩⟩

/-- The Template produced by construction from a one-variable FmtString
raw string over name. -/
def tNameOnly : Template :=
  ⟨str "Hello, \x7bname\x7d!", .FmtString, [str "name"], false, []⟩

/-- A FewShotChatTemplate with no examples, no prefix and no suffix, and
a custom separator. -/
def fewShotEmpty : FewShotChatTemplate :=
  ⟨⟨[], str "|", none, none⟩, ⟨[]⟩⟩

/-- A concrete message whose content is a single-variable placeholder. -/
def bmQuestion : MessageEnum := ⟨.human, str "\x7bquestion\x7d"⟩

/-! ## General lemmas about the association-list maps -/

theorem lookup_nil (k : Str) : (([] : VarMap).lookup k) = none := rfl

theorem lookup_cons (k a v : Str) (l : VarMap) :
    (((a, v) :: l).lookup k) = if k == a then some v else l.lookup k := by
  by_cases h : k = a
  · subst h
    simp [List.lookup]
  · have hb : (k == a) = false := beq_eq_false_iff_ne.mpr h
    simp [List.lookup, hb]

theorem lookup_append (l₁ l₂ : VarMap) (k : Str) :
    ((l₁ ++ l₂).lookup k) = ((l₁.lookup k).or (l₂.lookup k)) := by
  induction l₁ with
  | nil => simp [lookup_nil]
  | cons p l ih =>
    obtain ⟨a, v⟩ := p
    by_cases h : k == a
    · simp [lookup_cons, h]
    · simp only [List.cons_append, lookup_cons, h, if_neg]
      simpa using ih

/-- Lookup of the merged map: the runtime value wins, the default value
fills in. -/
theorem lookup_merge_vars (defaults runtime : VarMap) (k : Str) :
    ((merge_vars defaults runtime).lookup k) =
      ((runtime.lookup k).or (defaults.lookup k)) :=
  lookup_append runtime defaults k

theorem lookup_filter_ne (l : VarMap) (k w : Str) (h : w ≠ k) :
    ((l.filter (fun p => !(p.1 == k))).lookup w) = l.lookup w := by
  induction l with
  | nil => rfl
  | cons p l ih =>
    obtain ⟨a, v⟩ := p
    by_cases ha : a = k
    · subst ha
      have hw : (w == a) = false := beq_eq_false_iff_ne.mpr h
      simp [List.filter, lookup_cons, hw, ih]
    · have hak : (!(a == k)) = true := by
        simp only [Bool.not_eq_true', beq_eq_false_iff_ne]
        exact ha
      simp only [List.filter, hak]
      by_cases hw : w == a
      · simp [lookup_cons, hw]
      · simp [lookup_cons, hw, ih]

theorem lookup_insertVar_self (k v : Str) (m : VarMap) :
    ((insertVar k v m).lookup k) = some v := by
  simp [insertVar, lookup_cons]

theorem lookup_insertVar_ne (k v w : Str) (m : VarMap) (h : w ≠ k) :
    ((insertVar k v m).lookup w) = m.lookup w := by
  have hw : (w == k) = false := beq_eq_false_iff_ne.mpr h
  simp [insertVar, lookup_cons, hw, lookup_filter_ne m k w h]

/-! ## Lemmas about variable validation and FmtString formatting -/

theorem validateGo_ok (expected received : List Str) (merged : VarMap) :
    ∀ vs : List Str, (∀ v ∈ vs, (merged.lookup v).isSome = true) →
      Template.validateGo expected received merged vs = .ok () := by
  intro vs
  induction vs with
  | nil => intro _; rfl
  | cons v vs ih =>
    intro h
    have hv := h v (List.mem_cons_self v vs)
    simp [Template.validateGo, hv]
    exact ih (fun w hw => h w (List.mem_cons_of_mem v hw))

theorem validateGo_first_missing (expected received : List Str) (merged : VarMap) :
    ∀ (vs : List Str) (v : Str),
      vs.find? (fun w => (merged.lookup w).isNone) = some v →
      Template.validateGo expected received merged vs =
        .error (.MissingVariable (validateMissingMsg v expected received)) := by
  intro vs
  induction vs with
  | nil => intro v h; simp at h
  | cons w ws ih =>
    intro v h
    by_cases hw : (merged.lookup w).isNone = true
    · simp only [List.find?, hw] at h
      cases h
      have hns : (merged.lookup w).isSome = false := by
        cases hm : merged.lookup w
        · rfl
        · rw [hm] at hw; simp at hw
      simp [Template.validateGo, hns]
    · have hw2 : (merged.lookup w).isNone = false := by
        cases hm : merged.lookup w
        · rw [hm] at hw; simp at hw
        · rfl
      simp only [List.find?, hw2] at h
      have hs : (merged.lookup w).isSome = true := by
        cases hm : merged.lookup w
        · rw [hm] at hw2; simp at hw2
        · rfl
      simp [Template.validateGo, hs]
      exact ih v h

theorem validateGo_coverage (expected received : List Str) (merged : VarMap) :
    ∀ vs : List Str,
      Template.validateGo expected received merged vs = .ok () →
      ∀ v ∈ vs, (merged.lookup v).isSome = true := by
  intro vs
  induction vs with
  | nil => intro _ v hv; simp at hv
  | cons w ws ih =>
    intro h v hv
    by_cases hw : (merged.lookup w).isSome = true
    · rcases List.mem_cons.mp hv with hvw | hvw
      · subst hvw; exact hw
      · have hrest : Template.validateGo expected received merged ws = .ok () := by
          simpa [Template.validateGo, hw] using h
        exact ih hrest v hvw
    · exfalso
      simp [Template.validateGo, hw] at h

theorem fmtgo_ok (merged : VarMap) :
    ∀ (vs : List Str) (acc : Str), (∀ v ∈ vs, (merged.lookup v).isSome = true) →
      (Template.format_fmtstring_go merged vs acc).isOk = true := by
  intro vs
  induction vs with
  | nil => intro acc _; rfl
  | cons v vs ih =>
    intro acc h
    have hv := h v (List.mem_cons_self v vs)
    cases hm : merged.lookup v
    · rw [hm] at hv; simp at hv
    · simp [Template.format_fmtstring_go, hm]
      exact ih _ (fun w hw => h w (List.mem_cons_of_mem v hw))

theorem fmtgo_eq_foldl (merged : VarMap) :
    ∀ (vs : List Str) (acc : Str), (∀ v ∈ vs, (merged.lookup v).isSome = true) →
      Template.format_fmtstring_go merged vs acc =
        .ok (vs.foldl (fun a v =>
          replaceL a (Template.placeholderOf v) ((merged.lookup v).getD [])) acc) := by
  intro vs
  induction vs with
  | nil => intro acc _; rfl
  | cons v vs ih =>
    intro acc h
    have hv := h v (List.mem_cons_self v vs)
    cases hm : merged.lookup v
    · rw [hm] at hv; simp at hv
    · simp [Template.format_fmtstring_go, hm, List.foldl_cons]
      exact ih _ (fun w hw => h w (List.mem_cons_of_mem v hw))

theorem fmtgo_congr (m₁ m₂ : VarMap) :
    ∀ (vs : List Str) (acc : Str), (∀ v ∈ vs, m₁.lookup v = m₂.lookup v) →
      Template.format_fmtstring_go m₁ vs acc =
        Template.format_fmtstring_go m₂ vs acc := by
  intro vs
  induction vs with
  | nil => intro acc _; rfl
  | cons v vs ih =>
    intro acc h
    have hv := h v (List.mem_cons_self v vs)
    simp only [Template.format_fmtstring_go, hv]
    cases hm : m₂.lookup v
    · rfl
    · exact ih _ (fun w hw => h w (List.mem_cons_of_mem v hw))

/-- Success of Template::format for non-Mustache templates whose declared
variables are covered by the merged map. -/
theorem format_isOk_of_covers (t : Template) (render : Str → VarMap → Except Str Str)
    (m : VarMap)
    (hcov : ∀ v ∈ t.input_variables, ((merge_vars t.defaults m).lookup v).isSome = true)
    (hfmt : t.template_format ≠ TemplateFormat.Mustache) :
    (t.format render m).isOk = true := by
  simp only [Template.format, Template.validate_variables,
    validateGo_ok _ _ _ _ hcov]
  cases hf : t.template_format
  · rfl
  · exact fmtgo_ok _ _ _ hcov
  · exact absurd hf hfmt

/-! ## Claim C7: concatenation and the empty ChatTemplate -/

/-- C7: for all ChatTemplates a and b, the entry sequence of a + b is the
entries of a followed by the entries of b, and the empty ChatTemplate
(the one built from an empty list) is a two-sided identity for
concatenation. -/
theorem c7_concat_identity :
    ∀ a b x : ChatTemplate,
      (a.add b).messages = a.messages ++ b.messages ∧
      empty_chat_template.add x = x ∧
      x.add empty_chat_template = x ∧
      (∀ (hb : Str → Except Str Unit)
         (pfs : Str → Except TemplateError FewShotChatTemplate),
         ChatTemplate.from_messages hb pfs [] = .ok empty_chat_template) := by
  intro a b x
  refine ⟨rfl, ?_, ?_, fun _ _ => rfl⟩
  · cases x
    simp [ChatTemplate.add, empty_chat_template]
  · cases x
    simp [ChatTemplate.add, empty_chat_template]

/-! ## Claim C8: the MessagesPlaceholder limit is always positive -/

/-- C8: every constructed MessagesPlaceholder has a positive limit: the
default constructor stores 100, a supplied limit of zero is coerced to
the default 100, and a positive supplied limit is stored unchanged. -/
theorem c8_limit_coercion :
    ∀ (v : Str) (o : Bool) (n : Nat),
      0 < (MessagesPlaceholder.with_options v o n).n_messages ∧
      (MessagesPlaceholder.with_options v o 0).n_messages = 100 ∧
      (MessagesPlaceholder.new v).n_messages = 100 ∧
      MessagesPlaceholder.DEFAULT_LIMIT = 100 ∧
      (0 < n → (MessagesPlaceholder.with_options v o n).n_messages = n) := by
  intro v o n
  refine ⟨?_, rfl, rfl, rfl, ?_⟩
  · simp only [MessagesPlaceholder.with_options]
    split
    · simp [MessagesPlaceholder.DEFAULT_LIMIT]
    · omega
  · intro hn
    simp only [MessagesPlaceholder.with_options]
    rw [if_neg (by omega)]

/-- Witness for C8 at a concrete positive limit. -/
theorem c8_limit_coercion_witness :
    0 < (MessagesPlaceholder.with_options (str "history") true 50).n_messages ∧
    (MessagesPlaceholder.with_options (str "history") true 0).n_messages = 100 ∧
    (MessagesPlaceholder.new (str "history")).n_messages = 100 ∧
    (0 < 50 ∧ (MessagesPlaceholder.with_options (str "history") true 50).n_messages = 50) := by
  have h := c8_limit_coercion (str "history") true 50
  exact ⟨h.1, h.2.1, h.2.2.1, by decide, h.2.2.2.2 (by decide)⟩

/-! ## Claim C1: placeholder resolution in format_messages -/

/-- C1: the code bug at the claimed behavior.  An optional placeholder
whose variable IS present in the map, bound to the specification example
history JSON, contributes zero messages: the optional branch of
format_messages never consults the variable map, whereas the claim (and
the specification) require the present value to be deserialized, which on
this input yields one Human message even after truncation to the limit
100.  The conjuncts exhibit the evaluation of the code at the failing
input and the behavior the claim mandates there. -/
theorem c1_optional_placeholder_divergence :
    ctOptional.format_messages extHist [(str "history", histJson)] = .ok [] ∧
    ctOptional.invoke extHist [(str "history", histJson)] = .ok [] ∧
    [(str "history", histJson)].lookup (str "history") = some histJson ∧
    extHist.deser_messages histJson = .ok [⟨.human, str "hey"⟩] ∧
    ([(⟨.human, str "hey"⟩ : MessageEnum)].take 100 = [⟨.human, str "hey"⟩]) ∧
    (.ok [] : Except TemplateError (List MessageEnum)) ≠ .ok [⟨.human, str "hey"⟩] := by
  refine ⟨rfl, rfl, by decide, by decide, by decide, by decide⟩

/-! ## Claim C3: construction-time rejection of malformed raw strings -/

/-- C3 counterexample: the raw string that mixes one double-brace group
with two single-brace groups (even counts of braces on both sides) is NOT
rejected: Template::new classifies it as Mustache and succeeds, while the
claim requires every mixed string to fail with MalformedTemplate. -/
theorem c3_counterexample :
    Template.new hbAccepts (str "\x7b\x7ba\x7d\x7d \x7bb\x7d \x7bc\x7d") = .ok tMixed ∧
    tMixed.template_format = TemplateFormat.Mustache ∧
    has_consecutive_left_braces (str "\x7b\x7ba\x7d\x7d \x7bb\x7d \x7bc\x7d") = true ∧
    has_only_single_braces (str "\x7bb\x7d \x7bc\x7d") = true := by
  refine ⟨by decide, rfl, by decide, by decide⟩

/-- C3 as amended: construction fails with MalformedTemplate carrying the
raw string whenever the brace counts differ, and whenever braces are
present but the string satisfies neither the all-single nor the
all-double classification; in particular the mixed string with odd brace
counts from the specification scenario is rejected.  Mixed strings that
happen to satisfy the double-brace classification are accepted (see the
counterexample). -/
theorem c3_amended :
    ∀ (hb : Str → Except Str Unit) (s : Str),
      (count_left_braces s ≠ count_right_braces s →
        Template.new hb s = .error (.MalformedTemplate s)) ∧
      ((has_left_brace s || has_right_brace s) = true →
        has_only_double_braces s = false →
        has_only_single_braces s = false →
        Template.new hb s = .error (.MalformedTemplate s)) ∧
      Template.new hb (str "\x7bname\x7d and \x7b\x7bother\x7d\x7d") =
        .error (.MalformedTemplate (str "\x7bname\x7d and \x7b\x7bother\x7d\x7d")) := by
  intro hb s
  have key : ∀ s' : Str, is_valid_template s' = false →
      Template.new hb s' = .error (.MalformedTemplate s') := by
    intro s' hval
    unfold Template.new validate_template
    rw [hval]
    rfl
  refine ⟨?_, ?_, ?_⟩
  · intro hne
    apply key
    have hbr : has_no_braces s = false := by
      unfold has_no_braces has_left_brace has_right_brace
        count_left_braces count_right_braces at *
      by_contra hh
      simp only [Bool.not_eq_false, Bool.and_eq_true, Bool.not_eq_true',
        decide_eq_false_iff_not, Nat.not_lt, Nat.le_zero] at hh
      omega
    unfold is_valid_template
    rw [hbr]
    simp [hne]
  · intro hbr hdouble hsingle
    apply key
    have hnb : has_no_braces s = false := by
      unfold has_no_braces
      rcases Bool.or_eq_true_iff.mp hbr with h | h <;> simp [h]
    unfold is_valid_template
    rw [hnb]
    simp [hdouble, hsingle]
  · apply key
    decide

/-- Witness for C3 as amended, at a raw string with one unmatched opening
brace (counts one and zero) and at the brace-present condition. -/
theorem c3_amended_witness :
    (count_left_braces (str "\x7ba") ≠ count_right_braces (str "\x7ba") ∧
      Template.new hbAccepts (str "\x7ba") = .error (.MalformedTemplate (str "\x7ba"))) ∧
    Template.new hbAccepts (str "\x7bname\x7d and \x7b\x7bother\x7d\x7d") =
      .error (.MalformedTemplate (str "\x7bname\x7d and \x7b\x7bother\x7d\x7d")) := by
  have h := c3_amended hbAccepts (str "\x7ba")
  exact ⟨⟨by decide, h.1 (by decide)⟩, (c3_amended hbAccepts (str "x")).2.2⟩

/-! ## Claim C4: the first missing variable in declaration order -/

/-- C4: when some declared variable is absent from the map obtained by
overriding the defaults with the runtime variables (runtime wins, last
conjunct), format fails with a MissingVariable whose message identifies
the first declared variable, in declaration order, absent from the merged
map (the find? in the hypothesis); the final conjunct is the concrete
two-variable scenario where only a is supplied and the failure names b. -/
theorem c4_first_missing_variable :
    ∀ (t : Template) (render : Str → VarMap → Except Str Str) (m : VarMap) (v : Str),
      ((t.input_variables.find?
          (fun w => ((merge_vars t.defaults m).lookup w).isNone) = some v) →
        (t.format render m =
          .error (.MissingVariable (validateMissingMsg v t.input_variables
            ((merge_vars t.defaults m).map Prod.fst))) ∧
         ((merge_vars t.defaults m).lookup v) = none ∧
         v ∈ t.input_variables)) ∧
      (∀ k, ((merge_vars t.defaults m).lookup k) =
          ((m.lookup k).or (t.defaults.lookup k))) ∧
      ((Template.new hbAccepts (str "\x7ba\x7d \x7bb\x7d")).bind
          (fun tp => tp.format renderNone [(str "a", str "1")]) =
        .error (.MissingVariable
          (validateMissingMsg (str "b") [str "a", str "b"] [str "a"]))) := by
  intro t render m v
  refine ⟨?_, fun k => lookup_merge_vars t.defaults m k, by decide⟩
  intro h
  refine ⟨?_, ?_, List.mem_of_find?_eq_some h⟩
  · simp only [Template.format, Template.validate_variables,
      validateGo_first_missing t.input_variables
        ((merge_vars t.defaults m).map Prod.fst) (merge_vars t.defaults m)
        t.input_variables v h]
  · have hp := List.find?_some h
    simp only [Option.isNone_iff_eq_none, decide_eq_true_eq] at hp
    exact hp

/-- Witness for C4 at the concrete two-variable template with only the
first variable supplied. -/
theorem c4_first_missing_variable_witness :
    tPairAB.format renderNone [(str "a", str "1")] =
      .error (.MissingVariable (validateMissingMsg (str "b")
        [str "a", str "b"] [str "a"])) ∧
    ((merge_vars tPairAB.defaults [(str "a", str "1")]).lookup (str "b")) = none ∧
    (str "b") ∈ tPairAB.input_variables := by
  exact (c4_first_missing_variable tPairAB renderNone
    [(str "a", str "1")] (str "b")).1 (by decide)

/-! ## Claim C10: variable harvesting from every entry kind -/

theorem to_variables_map_append (ms : List MessageLike) (e : MessageLike) :
    to_variables_map_list (ms ++ [e]) =
      toVarsStep (to_variables_map_list ms) e := by
  simp [to_variables_map_list, List.foldl_append]

/-- C10: to_variables_map harvests from RolePromptTemplate entries and
from concrete BaseMessage entries (first brace-delimited valid identifier
of the content, mapped to the role string of the message type), a later
entry overwriting an earlier mapping of the same name; Placeholder and
FewShotPrompt entries contribute nothing. -/
theorem c10_to_variables_map :
    ∀ (ms : List MessageLike) (bm : MessageEnum) (v : Str),
      (ChatTemplate.to_variables_map ⟨ms⟩ = to_variables_map_list ms) ∧
      ((extract_variables bm.content).head? = some v →
        ((to_variables_map_list (ms ++ [.BaseMessage bm])).lookup v =
            some bm.msgType.as_str ∧
         ∀ w, w ≠ v →
           (to_variables_map_list (ms ++ [.BaseMessage bm])).lookup w =
             (to_variables_map_list ms).lookup w)) ∧
      ((extract_variables bm.content).head? = none →
        to_variables_map_list (ms ++ [.BaseMessage bm]) = to_variables_map_list ms) ∧
      (∀ p, to_variables_map_list (ms ++ [.Placeholder p]) = to_variables_map_list ms) ∧
      (∀ fs ep, to_variables_map_list (ms ++ [.FewShotPrompt fs ep]) =
          to_variables_map_list ms) ∧
      (∀ (r : Role) (tp : Template),
        (extract_variables tp.template).head? = some v →
        (to_variables_map_list (ms ++ [.RolePromptTemplate r tp])).lookup v =
          some r.as_str) := by
  intro ms bm v
  refine ⟨rfl, ?_, ?_, ?_, ?_, ?_⟩
  · intro h
    rw [to_variables_map_append]
    simp only [toVarsStep, h]
    exact ⟨lookup_insertVar_self _ _ _,
      fun w hw => lookup_insertVar_ne _ _ _ _ hw⟩
  · intro h
    rw [to_variables_map_append]
    simp only [toVarsStep, h]
  · intro p
    rw [to_variables_map_append]
    rfl
  · intro fs ep
    rw [to_variables_map_append]
    rfl
  · intro r tp h
    rw [to_variables_map_append]
    simp only [toVarsStep, h]
    exact lookup_insertVar_self _ _ _

/-- Witness for C10 at a concrete entry list: one role template over name
followed by a concrete human message whose content holds question. -/
theorem c10_to_variables_map_witness :
    (to_variables_map_list
        ([.RolePromptTemplate .System tNameOnly] ++ [.BaseMessage bmQuestion])).lookup
        (str "question") = some (str "human") ∧
    (to_variables_map_list
        ([.RolePromptTemplate .System tNameOnly] ++ [.BaseMessage bmQuestion])).lookup
        (str "name") =
      (to_variables_map_list [.RolePromptTemplate .System tNameOnly]).lookup
        (str "name") := by
  have h := (c10_to_variables_map [.RolePromptTemplate .System tNameOnly]
    bmQuestion (str "question")).2.1 (by decide)
  exact ⟨h.1, h.2 (str "name") (by decide)⟩

/-! ## Claim C6: few-shot example rendering -/

/-- C6 counterexample: a FewShotChatTemplate with the one-character
separator and one plain example renders its block E and then appends the
literal two-newline suffix, not the configured separator; so the claim
that the separator is appended fails. -/
theorem c6_counterexample :
    fewShotSep.examples.example_separator = str "|" ∧
    fewShotSep.format_examples renderNone = .ok (str "E\n\n") ∧
    str "E\n\n" ≠ str "E" ++ fewShotSep.examples.example_separator ∧
    Template.new hbAccepts (str "E") = .ok tPlainE := by
  refine ⟨rfl, by decide, by decide, by decide⟩

/-- C6 as amended: format_examples formats the underlying FewShotTemplate
with the variable map harvested from the example prompt and appends the
literal two-newline suffix (not the configured separator) to a non-empty
render, returning the empty string on an empty render; in particular a
FewShotChatTemplate with no examples, no prefix and no suffix yields the
empty string. -/
theorem c6_amended :
    ∀ (render : Str → VarMap → Except Str Str) (f : FewShotChatTemplate),
      (f.format_examples render =
        (f.examples.formatFS render f.example_prompt.to_variables_map).map
          (fun s => if s.isEmpty then [] else s ++ str "\n\n")) ∧
      (f.examples.examples = [] → f.examples.prefixTpl = none →
        f.examples.suffixTpl = none → f.format_examples render = .ok []) := by
  intro render f
  constructor
  · unfold FewShotChatTemplate.format_examples FewShotChatTemplate.formatFSC
    cases h : f.examples.formatFS render f.example_prompt.to_variables_map
    · rfl
    · rename_i ex
      simp only [Except.map]
      by_cases he : ex.isEmpty
      · simp [he]
      · simp [he]
  · intro h1 h2 h3
    obtain ⟨⟨exs, sep, pre, suf⟩, ep⟩ := f
    simp only at h1 h2 h3
    subst h1
    subst h2
    subst h3
    rfl

/-- Witness for C6 as amended at the empty few-shot fixture. -/
theorem c6_amended_witness :
    fewShotEmpty.format_examples renderNone = .ok [] ∧
    fewShotEmpty.format_examples renderNone =
      (fewShotEmpty.examples.formatFS renderNone
          fewShotEmpty.example_prompt.to_variables_map).map
        (fun s => if s.isEmpty then [] else s ++ str "\n\n") := by
  have h := c6_amended renderNone fewShotEmpty
  exact ⟨h.2 rfl rfl rfl, h.1⟩

/-! ## Lemmas about str::replace -/

theorem dropPre?_some : ∀ p s r : Str, dropPre? p s = some r → s = p ++ r := by
  intro p
  induction p with
  | nil =>
    intro s r h
    simp [dropPre?] at h
    simp [h]
  | cons a p ih =>
    intro s r h
    cases s with
    | nil => simp [dropPre?] at h
    | cons b tl =>
      by_cases hab : a = b
      · subst hab
        simp only [dropPre?, if_pos rfl] at h
        simp [ih tl r h]
      · simp [dropPre?, hab] at h

theorem dropPre?_append : ∀ p s : Str, dropPre? p (p ++ s) = some s := by
  intro p
  induction p with
  | nil => intro s; rfl
  | cons a p ih => intro s; simp [dropPre?, ih]

theorem stripPre?_eq_some {pat s rest : Str} (h : stripPre? pat s = some rest) :
    pat ≠ [] ∧ s = pat ++ rest := by
  cases pat with
  | nil => simp [stripPre?] at h
  | cons a p =>
    refine ⟨by simp, ?_⟩
    exact dropPre?_some _ _ _ h

theorem stripPre?_append {pat : Str} (s : Str) (h : pat ≠ []) :
    stripPre? pat (pat ++ s) = some s := by
  cases pat with
  | nil => exact absurd rfl h
  | cons a p => exact dropPre?_append (a :: p) s

theorem stripPre?_cons_ne (hc a : Char) (pat' s : Str) (h : hc ≠ a) :
    stripPre? (hc :: pat') (a :: s) = none := by
  simp [stripPre?, dropPre?, h]

theorem replFuel_irrel :
    ∀ (n m : Nat) (s pat rep : Str), s.length ≤ n → s.length ≤ m →
      replFuel n s pat rep = replFuel m s pat rep := by
  intro n
  induction n with
  | zero =>
    intro m s pat rep hn _
    have : s = [] := List.length_eq_zero.mp (Nat.le_zero.mp hn)
    subst this
    cases m <;> rfl
  | succ n ih =>
    intro m s pat rep hn hm
    cases s with
    | nil => cases m <;> rfl
    | cons a tl =>
      cases m with
      | zero => exact absurd hm (by simp)
      | succ m' =>
        simp only [replFuel]
        cases h : stripPre? pat (a :: tl) with
        | none =>
          have h1 : tl.length ≤ n := by
            simp only [List.length_cons] at hn
            omega
          have h2 : tl.length ≤ m' := by
            simp only [List.length_cons] at hm
            omega
          show a :: replFuel n tl pat rep = a :: replFuel m' tl pat rep
          rw [ih m' tl pat rep h1 h2]
        | some rest =>
          obtain ⟨hpat, hs⟩ := stripPre?_eq_some h
          have hlen : rest.length + pat.length = (a :: tl).length := by
            rw [hs, List.length_append]
            omega
          have hp1 : 1 ≤ pat.length := by
            cases pat
            · exact absurd rfl hpat
            · simp
          have h1 : rest.length ≤ n := by
            simp only [List.length_cons] at hlen hn
            omega
          have h2 : rest.length ≤ m' := by
            simp only [List.length_cons] at hlen hm
            omega
          show rep ++ replFuel n rest pat rep = rep ++ replFuel m' rest pat rep
          rw [ih m' rest pat rep h1 h2]

theorem replFuel_eq_replaceL (n : Nat) (s pat rep : Str) (h : s.length ≤ n) :
    replFuel n s pat rep = replaceL s pat rep :=
  replFuel_irrel n s.length s pat rep h (Nat.le_refl _)

theorem replaceL_nil (pat rep : Str) : replaceL [] pat rep = [] := rfl

theorem replaceL_matched {s pat rest : Str} (rep : Str)
    (h : stripPre? pat s = some rest) :
    replaceL s pat rep = rep ++ replaceL rest pat rep := by
  obtain ⟨hpat, hs⟩ := stripPre?_eq_some h
  cases pat with
  | nil => exact absurd rfl hpat
  | cons p ps =>
    subst hs
    show replFuel ((ps ++ rest).length + 1) (p :: (ps ++ rest)) (p :: ps) rep =
      rep ++ replaceL rest (p :: ps) rep
    simp only [replFuel,
      show stripPre? (p :: ps) (p :: (ps ++ rest)) = some rest from h]
    rw [replFuel_eq_replaceL _ _ _ _ (by rw [List.length_append]; omega)]

theorem replaceL_unmatched {a : Char} {tl pat : Str} (rep : Str)
    (h : stripPre? pat (a :: tl) = none) :
    replaceL (a :: tl) pat rep = a :: replaceL tl pat rep := by
  show replFuel ((a :: tl).length) (a :: tl) pat rep = _
  simp only [List.length_cons, replFuel, h]
  rw [replFuel_eq_replaceL _ _ _ _ (Nat.le_refl _)]

theorem replaceL_append_left (hc : Char) :
    ∀ (c s pat' rep : Str), (∀ x ∈ c, x ≠ hc) →
      replaceL (c ++ s) (hc :: pat') rep = c ++ replaceL s (hc :: pat') rep := by
  intro c
  induction c with
  | nil => intro s pat' rep _; rfl
  | cons a c ih =>
    intro s pat' rep hmem
    have ha : hc ≠ a := fun h => hmem a (List.mem_cons_self a c) h.symm
    rw [List.cons_append,
      replaceL_unmatched rep (stripPre?_cons_ne hc a pat' (c ++ s) ha),
      ih s pat' rep (fun x hx => hmem x (List.mem_cons_of_mem a hx))]
    rfl

theorem replaceL_self_match {pat : Str} (s rep : Str) (h : pat ≠ []) :
    replaceL (pat ++ s) pat rep = rep ++ replaceL s pat rep :=
  replaceL_matched rep (stripPre?_append s h)

theorem dropPre?_placeholder_ne :
    ∀ (v w s : Str), rb ∉ v → rb ∉ w → v ≠ w →
      dropPre? (v ++ [rb]) (w ++ ([rb] ++ s)) = none := by
  intro v
  induction v with
  | nil =>
    intro w s _ hw hne
    cases w with
    | nil => exact absurd rfl hne
    | cons b w' =>
      have hb : rb ≠ b := fun h => hw (h ▸ List.mem_cons_self b w')
      simp [dropPre?, hb]
  | cons a v' ih =>
    intro w s hv hw hne
    cases w with
    | nil =>
      have ha : a ≠ rb := fun h => hv (h ▸ List.mem_cons_self a v')
      simp [dropPre?, ha]
    | cons b w' =>
      by_cases hab : a = b
      · subst hab
        have hne' : v' ≠ w' := fun h => hne (by rw [h])
        have hv' : rb ∉ v' := fun h => hv (List.mem_cons_of_mem a h)
        have hw' : rb ∉ w' := fun h => hw (List.mem_cons_of_mem a h)
        simpa [dropPre?] using ih w' s hv' hw' hne'
      · simp [dropPre?, hab]

theorem stripPre?_placeholder_ne (v w s : Str) (hv : rb ∉ v) (hw : rb ∉ w)
    (hne : v ≠ w) :
    stripPre? (Template.placeholderOf v) (Template.placeholderOf w ++ s) = none := by
  show dropPre? (lb :: (v ++ [rb])) (lb :: ((w ++ [rb]) ++ s)) = none
  have step : dropPre? (lb :: (v ++ [rb])) (lb :: ((w ++ [rb]) ++ s)) =
      dropPre? (v ++ [rb]) ((w ++ [rb]) ++ s) := by
    simp [dropPre?]
  rw [step, List.append_assoc]
  exact dropPre?_placeholder_ne v w s hv hw hne

theorem replace_flat :
    ∀ (ts : List Tok) (v val : Str),
      (∀ t ∈ ts, match t with
        | .lit c => lb ∉ c
        | .var w => lb ∉ w ∧ rb ∉ w) →
      rb ∉ v → lb ∉ val →
      replaceL (flatToks ts) (Template.placeholderOf v) val =
        flatToks (ts.map (substTok v val)) := by
  intro ts
  induction ts with
  | nil => intro v val _ _ _; rfl
  | cons t ts ih =>
    intro v val hts hv hval
    have hts' : ∀ t ∈ ts, match t with
        | .lit c => lb ∉ c
        | .var w => lb ∉ w ∧ rb ∉ w :=
      fun t ht => hts t (List.mem_cons_of_mem _ ht)
    cases t with
    | lit c =>
      have hc : lb ∉ c := hts (.lit c) (List.mem_cons_self _ _)
      show replaceL (c ++ flatToks ts) (Template.placeholderOf v) val = _
      rw [show Template.placeholderOf v = lb :: (v ++ [rb]) from rfl]
      rw [replaceL_append_left lb c (flatToks ts) (v ++ [rb]) val
        (fun x hx hxeq => hc (hxeq ▸ hx))]
      rw [show (lb :: (v ++ [rb]) : Str) = Template.placeholderOf v from rfl]
      rw [ih v val hts' hv hval]
      rfl
    | var w =>
      by_cases hw : w = v
      · subst hw
        show replaceL (Template.placeholderOf w ++ flatToks ts)
          (Template.placeholderOf w) val = _
        rw [replaceL_self_match _ _ (by simp [Template.placeholderOf])]
        rw [ih w val hts' hv hval]
        simp [substTok, flatToks]
      · have hwb : lb ∉ w ∧ rb ∉ w := hts (.var w) (List.mem_cons_self _ _)
        show replaceL (Template.placeholderOf w ++ flatToks ts)
          (Template.placeholderOf v) val = _
        have hsp : stripPre? (Template.placeholderOf v)
            (Template.placeholderOf w ++ flatToks ts) = none :=
          stripPre?_placeholder_ne v w (flatToks ts) hv hwb.2 (fun h => hw h.symm)
        have hshape : Template.placeholderOf w ++ flatToks ts =
            lb :: ((w ++ [rb]) ++ flatToks ts) := by
          simp [Template.placeholderOf]
        rw [hshape] at hsp ⊢
        rw [replaceL_unmatched val hsp]
        have hmem : ∀ x ∈ w ++ [rb], x ≠ lb := by
          intro x hx
          rcases List.mem_append.mp hx with hxw | hxr
          · exact fun h => hwb.1 (h ▸ hxw)
          · have : x = rb := by simpa using hxr
            subst this
            decide
        rw [show Template.placeholderOf v = lb :: (v ++ [rb]) from rfl,
          replaceL_append_left lb (w ++ [rb]) (flatToks ts) (v ++ [rb]) val hmem]
        rw [show (lb :: (v ++ [rb]) : Str) = Template.placeholderOf v from rfl]
        rw [ih v val hts' hv hval]
        simp only [List.map_cons, substTok, if_neg hw, flatToks]
        simp [Template.placeholderOf]

theorem flat_all_lit_no_lb :
    ∀ ts : List Tok,
      (∀ t ∈ ts, match t with | .lit c => lb ∉ c | .var _ => False) →
      lb ∉ flatToks ts := by
  intro ts
  induction ts with
  | nil => intro _; simp [flatToks]
  | cons t ts ih =>
    intro h
    cases t with
    | lit c =>
      have hc : lb ∉ c := h (.lit c) (List.mem_cons_self _ _)
      show lb ∉ c ++ flatToks ts
      intro hmem
      rcases List.mem_append.mp hmem with hm | hm
      · exact hc hm
      · exact ih (fun t ht => h t (List.mem_cons_of_mem _ ht)) hm
    | var w => exact absurd (h (.var w) (List.mem_cons_self _ _)) (by simp)

theorem containsSeq_head_not_mem :
    ∀ (s : Str) (c : Char) (pat' : Str), c ∉ s →
      containsSeq (c :: pat') s = false := by
  intro s
  induction s with
  | nil => intro c pat' _; rfl
  | cons a tl ih =>
    intro c pat' h
    have hca : (c == a) = false :=
      beq_eq_false_iff_ne.mpr (fun hc => h (hc ▸ List.mem_cons_self a tl))
    simp only [containsSeq, List.isPrefixOf, hca, Bool.false_and, Bool.false_or]
    exact ih c pat' (fun hm => h (List.mem_cons_of_mem a hm))

/-- The main invariant of sequential FmtString substitution: starting
from a well-decomposed template and substituting brace-free values for
every declared variable in order yields a string made only of brace-free
literal chunks. -/
theorem fmtgo_flat :
    ∀ (vs : List Str) (merged : VarMap) (ts : List Tok),
      (∀ v ∈ vs, ∀ val, merged.lookup v = some val → lb ∉ val ∧ rb ∉ val) →
      (∀ v ∈ vs, (merged.lookup v).isSome = true) →
      (∀ v ∈ vs, lb ∉ v ∧ rb ∉ v) →
      (∀ t ∈ ts, TokOk vs t) →
      ∃ ts' : List Tok,
        Template.format_fmtstring_go merged vs (flatToks ts) = .ok (flatToks ts') ∧
        (∀ t ∈ ts', match t with | .lit c => lb ∉ c ∧ rb ∉ c | .var _ => False) := by
  intro vs
  induction vs with
  | nil =>
    intro merged ts _ _ _ hts
    refine ⟨ts, rfl, ?_⟩
    intro t ht
    cases t with
    | lit c => exact hts (.lit c) ht
    | var w => exact absurd (hts (.var w) ht).1 (by simp)
  | cons v vs ih =>
    intro merged ts hvals hcov hvars hts
    have hv := hcov v (List.mem_cons_self v vs)
    cases hm : merged.lookup v with
    | none => rw [hm] at hv; simp at hv
    | some val =>
      have hvalb : lb ∉ val ∧ rb ∉ val :=
        hvals v (List.mem_cons_self v vs) val hm
      have hvb : lb ∉ v ∧ rb ∉ v := hvars v (List.mem_cons_self v vs)
      simp only [Template.format_fmtstring_go, hm]
      rw [replace_flat ts v val ?hcond hvb.2 hvalb.1]
      case hcond =>
        intro t ht
        cases t with
        | lit c => exact (hts (.lit c) ht).1
        | var w => exact ⟨(hts (.var w) ht).2.1, (hts (.var w) ht).2.2⟩
      apply ih merged (ts.map (substTok v val))
      · exact fun w hw => hvals w (List.mem_cons_of_mem v hw)
      · exact fun w hw => hcov w (List.mem_cons_of_mem v hw)
      · exact fun w hw => hvars w (List.mem_cons_of_mem v hw)
      · intro t ht
        rcases List.mem_map.mp ht with ⟨t0, ht0, hsub⟩
        subst hsub
        cases t0 with
        | lit c => exact hts (.lit c) ht0
        | var w =>
          have hok := hts (.var w) ht0
          by_cases hwv : w = v
          · subst hwv
            simp only [substTok, if_pos rfl]
            exact hvalb
          · simp only [substTok, if_neg hwv]
            rcases List.mem_cons.mp hok.1 with h | h
            · exact absurd h hwv
            · exact ⟨h, hok.2.1, hok.2.2⟩

/-! ## Claim C2: success on covering maps and absence of residual markers -/

/-- C2 counterexample: the single-variable template over a, formatted
with the covering map that binds a to its own placeholder text, succeeds
and returns a string that still contains the literal placeholder of the
declared variable a; the claim asserts no such literal can remain. -/
theorem c2_counterexample :
    Template.new hbAccepts (str "\x7ba\x7d") = .ok tSingleA ∧
    tSingleA.format renderNone [(str "a", str "\x7ba\x7d")] = .ok (str "\x7ba\x7d") ∧
    (str "a") ∈ tSingleA.input_variables ∧
    ([(str "a", str "\x7ba\x7d")].lookup (str "a")).isSome = true ∧
    containsSeq (Template.placeholderOf (str "a")) (str "\x7ba\x7d") = true := by
  refine ⟨by decide, by decide, by decide, by decide, by decide⟩

/-- C2 as amended: when the merged map covers every declared variable and
the format is not Mustache (Mustache delegates to the external engine),
format succeeds; and for a FmtString template that decomposes into
brace-free literal chunks and placeholders of declared variables, with
brace-free declared names and brace-free substituted values, the output
contains no opening brace at all, hence no literal placeholder of any
variable. -/
theorem c2_amended :
    ∀ (t : Template) (render : Str → VarMap → Except Str Str) (m : VarMap),
      (∀ v ∈ t.input_variables,
        ((merge_vars t.defaults m).lookup v).isSome = true) →
      t.template_format ≠ TemplateFormat.Mustache →
      ((t.format render m).isOk = true) ∧
      (∀ ts : List Tok,
        t.template_format = TemplateFormat.FmtString →
        flatToks ts = t.template →
        (∀ tok ∈ ts, TokOk t.input_variables tok) →
        (∀ v ∈ t.input_variables, lb ∉ v ∧ rb ∉ v) →
        (∀ v ∈ t.input_variables, ∀ val,
          ((merge_vars t.defaults m).lookup v) = some val → lb ∉ val ∧ rb ∉ val) →
        ∀ out, t.format render m = .ok out →
          lb ∉ out ∧ ∀ w : Str, containsSeq (Template.placeholderOf w) out = false) := by
  intro t render m hcov hnm
  refine ⟨format_isOk_of_covers t render m hcov hnm, ?_⟩
  intro ts hfmt hflat htok hvars hvals out hout
  obtain ⟨ts', hgo, hts'⟩ :=
    fmtgo_flat t.input_variables (merge_vars t.defaults m) ts hvals hcov hvars htok
  have hform : t.format render m = .ok (flatToks ts') := by
    simp only [Template.format, Template.validate_variables,
      validateGo_ok _ _ _ _ hcov, hfmt, Template.format_fmtstring]
    rw [← hflat]
    exact hgo
  rw [hform] at hout
  cases hout
  have hlb : lb ∉ flatToks ts' :=
    flat_all_lit_no_lb ts' (by
      intro tok htk
      cases tok with
      | lit c => exact (hts' (.lit c) htk).1
      | var w => exact hts' (.var w) htk)
  refine ⟨hlb, ?_⟩
  intro w
  exact containsSeq_head_not_mem _ lb (w ++ [rb]) hlb

/-- Witness for C2 as amended at the one-variable template over name with
the covering map binding name to a brace-free value. -/
theorem c2_amended_witness :
    (tNameOnly.format renderNone [(str "name", str "Alice")]).isOk = true ∧
    lb ∉ (str "Hello, Alice!") ∧
    containsSeq (Template.placeholderOf (str "name")) (str "Hello, Alice!") = false := by
  have h := c2_amended tNameOnly renderNone [(str "name", str "Alice")]
    (by decide) (by decide)
  have h2 := h.2 [.lit (str "Hello, "), .var (str "name"), .lit (str "!")]
    (by decide) (by decide) (by decide) (by decide) (by decide)
    (str "Hello, Alice!") (by decide)
  exact ⟨h.1, h2.1, h2.2 (str "name")⟩

/-! ## Claim C5: FmtString formatting is the sequential replacement fold -/

/-- C5: for a FmtString template and a covering map, format returns the
left fold that starts from the raw string and, for each declared variable
in declaration order, replaces every occurrence of its placeholder across
the whole current string with its merged value; the final conjunct is the
concrete order-dependence scenario: the value of a contains the
placeholder of the later variable b and is itself substituted on the
later iteration. -/
theorem c5_sequential_fold :
    ∀ (t : Template) (render : Str → VarMap → Except Str Str) (m : VarMap),
      t.template_format = TemplateFormat.FmtString →
      (∀ v ∈ t.input_variables,
        ((merge_vars t.defaults m).lookup v).isSome = true) →
      (t.format render m = .ok (t.input_variables.foldl
        (fun acc v => replaceL acc (Template.placeholderOf v)
          (((merge_vars t.defaults m).lookup v).getD [])) t.template)) ∧
      ((Template.new hbAccepts (str "\x7ba\x7d\x7bb\x7d")).bind
          (fun td => td.format renderNone
            [(str "a", str "\x7bb\x7d"), (str "b", str "Z")]) =
        .ok (str "ZZ")) := by
  intro t render m hfmt hcov
  constructor
  · simp only [Template.format, Template.validate_variables,
      validateGo_ok _ _ _ _ hcov, hfmt, Template.format_fmtstring]
    exact fmtgo_eq_foldl _ _ _ hcov
  · decide

/-- Witness for C5 at the two-variable template with a covering map. -/
theorem c5_sequential_fold_witness :
    tPairAB.format renderNone [(str "a", str "1"), (str "b", str "2")] =
      .ok (tPairAB.input_variables.foldl
        (fun acc v => replaceL acc (Template.placeholderOf v)
          (((merge_vars tPairAB.defaults
              [(str "a", str "1"), (str "b", str "2")]).lookup v).getD []))
        tPairAB.template) :=
  (c5_sequential_fold tPairAB renderNone
    [(str "a", str "1"), (str "b", str "2")] (by decide) (by decide)).1

/-! ## Claim C9: supplying extra variables -/

/-- C9 counterexample: for the template over a with the default value P
bound for a, the empty map formats to P, but the superset map that binds
a to Q formats to Q: the runtime value overrides the default, so the
output on the superset differs from the output on the original map (and
from the output on its restriction to the declared variables), refuting
the equality part of the claim. -/
theorem c9_counterexample :
    (Template.new hbAccepts (str "\x7ba\x7d")).map
        (fun t => t.bindDefault (str "a") (str "P")) = .ok tSingleADefault ∧
    tSingleADefault.format renderNone [] = .ok (str "P") ∧
    tSingleADefault.format renderNone [(str "a", str "Q")] = .ok (str "Q") ∧
    mapSub [] [(str "a", str "Q")] ∧
    (str "P") ≠ (str "Q") := by
  refine ⟨by decide, by decide, by decide, ?_, by decide⟩
  intro k v h
  exact Option.noConfusion h

/-- C9 as amended: for non-Mustache templates, extending the variable map
never turns a successful format into a failure; and when every declared
variable is bound in the original map itself (so no default is being
relied upon), the output on the superset equals the output on the
original map. -/
theorem c9_amended :
    ∀ (t : Template) (render : Str → VarMap → Except Str Str) (m mBig : VarMap),
      mapSub m mBig →
      t.template_format ≠ TemplateFormat.Mustache →
      ((t.format render m).isOk = true → (t.format render mBig).isOk = true) ∧
      ((∀ v ∈ t.input_variables, (m.lookup v).isSome = true) →
        t.format render mBig = t.format render m) := by
  intro t render m mBig hsub hnm
  have hcovBig : (∀ v ∈ t.input_variables,
      ((merge_vars t.defaults m).lookup v).isSome = true) →
      ∀ v ∈ t.input_variables,
        ((merge_vars t.defaults mBig).lookup v).isSome = true := by
    intro hcov v hv
    have h1 := hcov v hv
    rw [lookup_merge_vars] at h1 ⊢
    cases hm : m.lookup v with
    | some val =>
      rw [hsub v val hm]
      rfl
    | none =>
      rw [hm] at h1
      cases hb : mBig.lookup v
      · simpa using h1
      · rfl
  constructor
  · intro hok
    have hcov : ∀ v ∈ t.input_variables,
        ((merge_vars t.defaults m).lookup v).isSome = true := by
      intro v hv
      cases hval : t.validate_variables (merge_vars t.defaults m) with
      | error e =>
        exfalso
        simp only [Template.format] at hok
        rw [hval] at hok
        simp [Except.isOk, Except.toBool] at hok
      | ok u =>
        cases u
        exact validateGo_coverage _ _ _ _ hval v hv
    exact format_isOk_of_covers t render mBig (hcovBig hcov) hnm
  · intro hall
    have hagree : ∀ v ∈ t.input_variables,
        (merge_vars t.defaults mBig).lookup v =
          (merge_vars t.defaults m).lookup v := by
      intro v hv
      have h1 := hall v hv
      cases hm : m.lookup v with
      | none => rw [hm] at h1; simp at h1
      | some val =>
        rw [lookup_merge_vars, lookup_merge_vars, hm, hsub v val hm]
    have hcov : ∀ v ∈ t.input_variables,
        ((merge_vars t.defaults m).lookup v).isSome = true := by
      intro v hv
      have h1 := hall v hv
      rw [lookup_merge_vars]
      cases hm : m.lookup v with
      | none => rw [hm] at h1; simp at h1
      | some val => rfl
    have hcovB := hcovBig hcov
    simp only [Template.format, Template.validate_variables,
      validateGo_ok _ _ _ _ hcov, validateGo_ok _ _ _ _ hcovB]
    cases hf : t.template_format
    · rfl
    · exact fmtgo_congr _ _ _ _ hagree
    · exact absurd hf hnm

/-- Witness for C9 as amended: the one-variable template over name, the
map binding name, and its extension by an unrelated extra binding. -/
theorem c9_amended_witness :
    ((tNameOnly.format renderNone [(str "name", str "Alice")]).isOk = true →
      (tNameOnly.format renderNone
        [(str "name", str "Alice"), (str "extra", str "x")]).isOk = true) ∧
    tNameOnly.format renderNone [(str "name", str "Alice"), (str "extra", str "x")] =
      tNameOnly.format renderNone [(str "name", str "Alice")] := by
  have hsub : mapSub [(str "name", str "Alice")]
      [(str "name", str "Alice"), (str "extra", str "x")] := by
    intro k v h
    rw [lookup_cons] at h ⊢
    by_cases hk : (k == str "name") = true
    · rw [if_pos hk] at h ⊢
      exact h
    · rw [if_neg hk] at h
      exact Option.noConfusion h
  have h := c9_amended tNameOnly renderNone [(str "name", str "Alice")]
    [(str "name", str "Alice"), (str "extra", str "x")] hsub (by decide)
  exact ⟨h.1, h.2 (by decide)⟩

end PromptForge
